import Mathlib

/-!
Verification development for the law-office billing core:
billing entries as half-open time intervals, the overlap-rejection
triggers installed by 2025-05-02_db_schema_update.py, and the invoice
lifecycle implemented in src/mcp_server_sqlite/tool_handlers_001.py.

Timestamps are modelled as naturals: the source stores ISO text
timestamps whose lexicographic SQLite ordering is order-isomorphic to
chronological order, and the triggers use only comparisons.
Presentation columns (category, description, hours, totals, created and
last_modified stamps) are carried by no claim and are omitted.
-/

namespace LawOffice

/-- Status values of the client_invoices.status column used by the core:
draft and submitted. -/
inductive InvStatus where
  | draft
  | submitted
deriving DecidableEq

/-- Status values of the invoice_billing_items.status column used by the
core: draft and committed. -/
inductive ItemStatus where
  | draft
  | committed
deriving DecidableEq

/-- A row of billing_entries, keeping the columns the triggers and the
tool handlers read: billing_id, matter_id, billing_start, billing_stop. -/
structure BillingEntry where
  billing_id : Nat
  matter_id : Nat
  billing_start : Nat
  billing_stop : Nat
deriving DecidableEq

/-- A row of client_invoices, keeping the columns the handlers read:
invoice_id, client_id, matter_id, invoice_number, status, is_valid. -/
structure Invoice where
  invoice_id : Nat
  client_id : Nat
  matter_id : Nat
  invoice_number : Nat
  status : InvStatus
  is_valid : Bool
deriving DecidableEq

/-- A row of invoice_billing_items: the association between an invoice
and a billing entry, with its own status column. -/
structure InvoiceBillingItem where
  invoice_id : Nat
  billing_id : Nat
  status : ItemStatus
deriving DecidableEq

/-- The persistent store: the three core tables plus the matters
reference table (kept only as the set of matter ids, which
record_billable_time checks before inserting). -/
structure DB where
  matters : List Nat
  entries : List BillingEntry
  invoices : List Invoice
  items : List InvoiceBillingItem
deriving DecidableEq

/-- The three-way overlap disjunction exactly as written in the bodies of
the triggers prevent_overlap_before_insert and
prevent_overlap_before_update in 2025-05-02_db_schema_update.py:
new starts during existing, or new ends during existing, or new
encapsulates existing. -/
def OverlapDisj (n e : BillingEntry) : Prop :=
  (n.billing_start ≥ e.billing_start ∧ n.billing_start < e.billing_stop)
  ∨ (n.billing_stop > e.billing_start ∧ n.billing_stop ≤ e.billing_stop)
  ∨ (n.billing_start ≤ e.billing_start ∧ n.billing_stop ≥ e.billing_stop)

instance (n e : BillingEntry) : Decidable (OverlapDisj n e) := by
  unfold OverlapDisj; exact inferInstance

/-- The single inequality pair of the specification (section 4.1 step 2
and the glossary): two half-open intervals overlap iff each starts before
the other stops. -/
def OverlapSingle (n e : BillingEntry) : Prop :=
  n.billing_start < e.billing_stop ∧ e.billing_start < n.billing_stop

instance (n e : BillingEntry) : Decidable (OverlapSingle n e) := by
  unfold OverlapSingle; exact inferInstance

/-- The commitment condition as the triggers actually join it: there is an
invoice_billing_items row for the entry whose status column is committed
and whose invoice has status submitted.  The ibi.status = committed
conjunct is in the trigger SQL (commented there as a redundant check). -/
def GuardCommitted (s : DB) (bid : Nat) : Prop :=
  ∃ it ∈ s.items, it.billing_id = bid ∧ it.status = ItemStatus.committed ∧
    ∃ ci ∈ s.invoices, ci.invoice_id = it.invoice_id ∧
      ci.status = InvStatus.submitted

instance (s : DB) (bid : Nat) : Decidable (GuardCommitted s bid) := by
  unfold GuardCommitted; exact inferInstance

/-- The Commitment Tracker contract of specification section 4.2: an entry
is committed iff some invoice_billing_items row links it to an invoice
with status submitted, with no condition on the item status and no cached
flag. -/
def IsCommitted (s : DB) (bid : Nat) : Prop :=
  ∃ it ∈ s.items, it.billing_id = bid ∧
    ∃ ci ∈ s.invoices, ci.invoice_id = it.invoice_id ∧
      ci.status = InvStatus.submitted

instance (s : DB) (bid : Nat) : Decidable (IsCommitted s bid) := by
  unfold IsCommitted; exact inferInstance

/-- Condition under which the prevent_overlap_before_insert trigger fires:
some row of billing_entries is guard-committed and the new row satisfies
the three-way overlap disjunction against it.  The trigger has no
matter_id condition. -/
def InsertTriggerFires (s : DB) (n : BillingEntry) : Prop :=
  ∃ be ∈ s.entries, GuardCommitted s be.billing_id ∧ OverlapDisj n be

instance (s : DB) (n : BillingEntry) : Decidable (InsertTriggerFires s n) := by
  unfold InsertTriggerFires; exact inferInstance

/-- Condition under which the prevent_overlap_before_update trigger fires:
as for insert, except the row being updated is excluded by billing_id. -/
def UpdateTriggerFires (s : DB) (n : BillingEntry) : Prop :=
  ∃ be ∈ s.entries, GuardCommitted s be.billing_id ∧
    be.billing_id ≠ n.billing_id ∧ OverlapDisj n be

instance (s : DB) (n : BillingEntry) : Decidable (UpdateTriggerFires s n) := by
  unfold UpdateTriggerFires; exact inferInstance

/-- Fresh billing_id, modelling the SQLite rowid autoincrement: one more
than the largest id in the table. -/
def freshEntryId (s : DB) : Nat :=
  (s.entries.map (fun be => be.billing_id)).foldr max 0 + 1

/-- Fresh invoice_id, modelling the SQLite rowid autoincrement. -/
def freshInvoiceId (s : DB) : Nat :=
  (s.invoices.map (fun ci => ci.invoice_id)).foldr max 0 + 1

/-- Outcome of record_billable_time. -/
inductive InsertResult where
  | inserted (billing_id : Nat)
  | conflictError
  | matterNotFound
deriving DecidableEq

/-- Outcome of update_billing_entry. -/
inductive UpdateResult where
  | updated
  | conflictError
  | notFound
deriving DecidableEq

/-- Outcome of add_billing_to_invoice. -/
inductive AttachResult where
  | attached
  | invoiceNotFound
  | immutableInvoice
  | entryNotFound
  | duplicateAttachment
deriving DecidableEq

/-- Outcome of submit_invoice.  The two failure constructors for conflicts
carry the list of (member entry id, conflicting entry id) pairs the
source reports to the caller; the handler refusal text and the trigger
abort message are both fixed strings naming no entries, so the source
always reports the empty list. -/
inductive SubmitResult where
  | notFound
  | alreadySubmitted
  | refusedInvalid (reported : List (Nat × Nat))
  | abortedConflict (reported : List (Nat × Nat))
  | success
deriving DecidableEq

/-- record_billable_time from tool_handlers_001.py: check the matter
exists, then INSERT the new row with the interval as given; the insert is
aborted when prevent_overlap_before_insert fires, leaving the store
unchanged. -/
def recordBillableTime (s : DB) (matter_id start stop : Nat) :
    DB × InsertResult :=
  if matter_id ∈ s.matters then
    let n : BillingEntry :=
      ⟨freshEntryId s, matter_id, start, stop⟩
    if InsertTriggerFires s n then (s, InsertResult.conflictError)
    else ({ s with entries := s.entries ++ [n] },
          InsertResult.inserted n.billing_id)
  else (s, InsertResult.matterNotFound)

/-- Modelled from the spec: update_billing_entry (spec section 6) has no
dedicated handler in src (writes go through write_query), so the command
shell is the one-row UPDATE of the interval bounds the spec describes;
the guarding prevent_overlap_before_update trigger is embedded from the
source SQL. -/
def updateBillingEntry (s : DB) (bid newStart newStop : Nat) :
    DB × UpdateResult :=
  match s.entries.find? (fun be => be.billing_id == bid) with
  | none => (s, UpdateResult.notFound)
  | some be =>
    let n : BillingEntry :=
      { be with billing_start := newStart, billing_stop := newStop }
    if UpdateTriggerFires s n then (s, UpdateResult.conflictError)
    else ({ s with entries := s.entries.map (fun b =>
              if b.billing_id == bid then
                { b with billing_start := newStart, billing_stop := newStop }
              else b) },
          UpdateResult.updated)

/-- create_invoice from tool_handlers_001.py: INSERT a new client_invoices
row with status draft and zero totals.  The is_valid column is not in the
INSERT. Modelled from the spec: the CREATE TABLE for client_invoices is
absent from src, and the spec (section 4.3 create) fixes the validity
flag as true by default, an empty invoice being trivially valid. -/
def createInvoice (s : DB) (client_id matter_id invoice_number : Nat) :
    DB × Nat :=
  let i : Invoice :=
    ⟨freshInvoiceId s, client_id, matter_id, invoice_number,
     InvStatus.draft, true⟩
  ({ s with invoices := s.invoices ++ [i] }, i.invoice_id)

/-- Lookup of a client_invoices row by invoice_id, as the handlers do with
SELECT by id. -/
def findInvoice (s : DB) (invId : Nat) : Option Invoice :=
  s.invoices.find? (fun ci => ci.invoice_id == invId)

/-- Lookup of a billing_entries row by billing_id. -/
def findEntry (s : DB) (bid : Nat) : Option BillingEntry :=
  s.entries.find? (fun be => be.billing_id == bid)

/-- add_billing_to_invoice from tool_handlers_001.py: the invoice must
exist and be draft, the entry must exist, the (invoice, entry) pair must
not already be present; then an invoice_billing_items row with status
draft is inserted.  The handler reads no matter_id and performs no
matter-consistency or committed-elsewhere check. -/
def addBillingToInvoice (s : DB) (invId bid : Nat) : DB × AttachResult :=
  match findInvoice s invId with
  | none => (s, AttachResult.invoiceNotFound)
  | some inv =>
    if inv.status ≠ InvStatus.draft then (s, AttachResult.immutableInvoice)
    else
      match findEntry s bid with
      | none => (s, AttachResult.entryNotFound)
      | some _ =>
        if s.items.any (fun it =>
            it.invoice_id == invId && it.billing_id == bid) then
          (s, AttachResult.duplicateAttachment)
        else
          ({ s with items :=
              s.items ++ [⟨invId, bid, ItemStatus.draft⟩] },
           AttachResult.attached)

/-- The member entries of an invoice: billing_entries rows linked to it by
an invoice_billing_items row. -/
def memberEntries (s : DB) (invId : Nat) : List BillingEntry :=
  s.entries.filter (fun be => s.items.any (fun it =>
    it.invoice_id == invId && it.billing_id == be.billing_id))

/-- Modelled from the spec: the final conflict condition re-checked at
submission by the enforce_validity_on_submit trigger, whose body is
absent from src (the schema-update script only keeps it as a final
check).  Spec section 4.3: re-run the Overlap Guard predicate of section
4.1 for every member entry, against the OTHER entries currently committed
(Commitment Tracker sense), self excluded by identity. -/
def SubmitConflict (s : DB) (invId : Nat) : Prop :=
  ∃ n ∈ memberEntries s invId, ∃ be ∈ s.entries,
    IsCommitted s be.billing_id ∧ be.billing_id ≠ n.billing_id ∧
      OverlapSingle n be

instance (s : DB) (invId : Nat) : Decidable (SubmitConflict s invId) := by
  unfold SubmitConflict; exact inferInstance

/-- The actual conflict pairs of an invoice: (member entry id, committed
conflicting entry id), per the spec predicate of section 4.1/4.3. -/
def invoiceConflicts (s : DB) (invId : Nat) : List (Nat × Nat) :=
  (memberEntries s invId).foldr (fun n acc =>
    ((s.entries.filter (fun be =>
        decide (IsCommitted s be.billing_id) &&
        !(be.billing_id == n.billing_id) &&
        decide (OverlapSingle n be))).map
      (fun be => (n.billing_id, be.billing_id))) ++ acc) []

/-- The state change of a successful submission: the invoice row gets
status submitted, and every invoice_billing_items row of the invoice gets
status committed (the latter Modelled from the spec, section 4.3 effect;
the mark_committed_billing_entries trigger body is absent from src). -/
def submitApply (s : DB) (invId : Nat) : DB :=
  { s with
      invoices := s.invoices.map (fun ci =>
        if ci.invoice_id == invId then
          { ci with status := InvStatus.submitted }
        else ci),
      items := s.items.map (fun it =>
        if it.invoice_id == invId then
          { it with status := ItemStatus.committed }
        else it) }

/-- submit_invoice from tool_handlers_001.py: the invoice must exist and
be draft, otherwise the handler raises the already-submitted error; a
false cached is_valid flag makes it refuse with a fixed message naming no
conflicts; then the status change is applied.  The final conflict
re-check is Modelled from the spec (section 4.3; the
enforce_validity_on_submit trigger body is absent from src). -/
def submitInvoice (s : DB) (invId : Nat) : DB × SubmitResult :=
  match findInvoice s invId with
  | none => (s, SubmitResult.notFound)
  | some inv =>
    if inv.status ≠ InvStatus.draft then (s, SubmitResult.alreadySubmitted)
    else if inv.is_valid = false then (s, SubmitResult.refusedInvalid [])
    else if SubmitConflict s invId then (s, SubmitResult.abortedConflict [])
    else (submitApply s invId, SubmitResult.success)

/-- The core operations of the command interface (spec section 6),
restricted to the sequence the invariants quantify over: entry insert,
entry update, invoice creation, attach, submit. -/
inductive Op where
  | insert (matter_id start stop : Nat)
  | update (bid newStart newStop : Nat)
  | create (client_id matter_id invoice_number : Nat)
  | attach (invId bid : Nat)
  | submit (invId : Nat)

/-- One step of the state machine: apply an operation, keeping the
resulting store (rejected operations leave it unchanged). -/
def step (s : DB) : Op → DB
  | Op.insert m a b => (recordBillableTime s m a b).1
  | Op.update bid a b => (updateBillingEntry s bid a b).1
  | Op.create c m n => (createInvoice s c m n).1
  | Op.attach i b => (addBillingToInvoice s i b).1
  | Op.submit i => (submitInvoice s i).1

/-- Run a sequence of operations. -/
def run (s : DB) : List Op → DB :=
  List.foldl step s

/-- The initial store: the matters reference table populated, the three
core tables empty. -/
def init (ms : List Nat) : DB :=
  ⟨ms, [], [], []⟩

/-- A store is reachable when some operation sequence produces it from an
initial store. -/
def Reachable (s : DB) : Prop :=
  ∃ ms ops, s = run (init ms) ops

/-- Membership of an entry id on a given invoice, via an
invoice_billing_items row. -/
def MemberOf (s : DB) (invId bid : Nat) : Prop :=
  ∃ it ∈ s.items, it.invoice_id = invId ∧ it.billing_id = bid

instance (s : DB) (invId bid : Nat) : Decidable (MemberOf s invId bid) := by
  unfold MemberOf; exact inferInstance

/-- Two entry ids appear together on one invoice whose status is
submitted. -/
def SharesSubmittedInvoice (s : DB) (a b : Nat) : Prop :=
  ∃ ci ∈ s.invoices, ci.status = InvStatus.submitted ∧
    MemberOf s ci.invoice_id a ∧ MemberOf s ci.invoice_id b

instance (s : DB) (a b : Nat) : Decidable (SharesSubmittedInvoice s a b) := by
  unfold SharesSubmittedInvoice; exact inferInstance

/-- The inductive invariant of the core state machine: invoice ids are
unique, items reference existing invoices and entries, (invoice, entry)
pairs are attached at most once, the item status column is synchronized
with its invoice status, and committed entries that do not sit together
on one submitted invoice never overlap. -/
structure CoreInv (s : DB) : Prop where
  invNodup : (s.invoices.map Invoice.invoice_id).Nodup
  itemInv : ∀ it ∈ s.items, ∃ ci ∈ s.invoices, ci.invoice_id = it.invoice_id
  itemEntry : ∀ it ∈ s.items, ∃ be ∈ s.entries, be.billing_id = it.billing_id
  itemNodup : List.Pairwise (fun x y : InvoiceBillingItem =>
      ¬(x.invoice_id = y.invoice_id ∧ x.billing_id = y.billing_id)) s.items
  sync : ∀ it ∈ s.items, ∀ ci ∈ s.invoices, ci.invoice_id = it.invoice_id →
      (it.status = ItemStatus.committed ↔ ci.status = InvStatus.submitted)
  noOv : ∀ a ∈ s.entries, ∀ b ∈ s.entries, a.billing_id ≠ b.billing_id →
      IsCommitted s a.billing_id → IsCommitted s b.billing_id →
      ¬ SharesSubmittedInvoice s a.billing_id b.billing_id →
      ¬ OverlapSingle a b

/-- Store with one committed entry of matter 1 spanning 0 to 10. -/
def stateMatterOne : DB :=
  ⟨[1, 2], [⟨1, 1, 0, 10⟩],
   [⟨1, 1, 1, 100, InvStatus.submitted, true⟩],
   [⟨1, 1, ItemStatus.committed⟩]⟩

/-- Store with one committed zero-duration entry at time 7. -/
def stateZeroDur : DB :=
  ⟨[1], [⟨1, 1, 7, 7⟩],
   [⟨1, 1, 1, 100, InvStatus.submitted, true⟩],
   [⟨1, 1, ItemStatus.committed⟩]⟩

/-- Store with one committed entry spanning 0 to 10. -/
def stateCommitted : DB :=
  ⟨[1], [⟨1, 1, 0, 10⟩],
   [⟨1, 1, 1, 100, InvStatus.submitted, true⟩],
   [⟨1, 1, ItemStatus.committed⟩]⟩

/-- Store where the item linking entry 1 to the submitted invoice 1 still
has status draft. -/
def stateDraftItem : DB :=
  ⟨[1], [⟨1, 1, 0, 10⟩],
   [⟨1, 1, 1, 100, InvStatus.submitted, true⟩],
   [⟨1, 1, ItemStatus.draft⟩]⟩

/-- Store with a committed entry 1 spanning 0 to 10 and a draft invoice 2
holding the conflicting entry 2 spanning 5 to 15, with the cached
validity flag false. -/
def stateInvalidDraft : DB :=
  ⟨[1],
   [⟨1, 1, 0, 10⟩, ⟨2, 1, 5, 15⟩],
   [⟨1, 1, 1, 100, InvStatus.submitted, true⟩,
    ⟨2, 1, 1, 101, InvStatus.draft, false⟩],
   [⟨1, 1, ItemStatus.committed⟩, ⟨2, 2, ItemStatus.draft⟩]⟩

/-- Store as stateInvalidDraft but with the cached validity flag of the
draft invoice still true (stale). -/
def stateStaleValid : DB :=
  ⟨[1],
   [⟨1, 1, 0, 10⟩, ⟨2, 1, 5, 15⟩],
   [⟨1, 1, 1, 100, InvStatus.submitted, true⟩,
    ⟨2, 1, 1, 101, InvStatus.draft, true⟩],
   [⟨1, 1, ItemStatus.committed⟩, ⟨2, 2, ItemStatus.draft⟩]⟩

/-- Store with a draft invoice of matter 1 holding entry 1 of matter 1,
valid and conflict free. -/
def stateReadyDraft : DB :=
  ⟨[1],
   [⟨1, 1, 0, 10⟩],
   [⟨1, 1, 1, 100, InvStatus.draft, true⟩],
   [⟨1, 1, ItemStatus.draft⟩]⟩

/-- Store with a draft invoice of matter 1 and an unattached entry of
matter 2. -/
def stateCrossMatter : DB :=
  ⟨[1, 2], [⟨1, 2, 0, 10⟩],
   [⟨1, 1, 1, 100, InvStatus.draft, true⟩], []⟩

/-- Operation sequence committing two mutually overlapping entries of one
matter through a single invoice. -/
def opsSameInvoiceOverlap : List Op :=
  [Op.insert 1 0 10, Op.insert 1 5 15, Op.create 1 1 100,
   Op.attach 1 1, Op.attach 1 2, Op.submit 1]

/-- Operation sequence attaching one entry to two draft invoices and then
submitting both. -/
def opsDoubleBilling : List Op :=
  [Op.insert 1 0 10, Op.create 1 1 100, Op.create 1 1 101,
   Op.attach 1 1, Op.attach 2 1, Op.submit 1, Op.submit 2]

/-- Operation sequence committing two disjoint entries of one matter
through two different invoices. -/
def opsTwoInvoices : List Op :=
  [Op.insert 1 0 10, Op.insert 1 20 30, Op.create 1 1 100,
   Op.create 1 1 101, Op.attach 1 1, Op.attach 2 2,
   Op.submit 1, Op.submit 2]

/-- Operation sequence committing two disjoint entries through one
invoice. -/
def opsOneInvoiceTwoEntries : List Op :=
  [Op.insert 1 0 10, Op.insert 1 20 30, Op.create 1 1 100,
   Op.attach 1 1, Op.attach 1 2, Op.submit 1]

/-- Operation sequence committing a single entry through one invoice. -/
def opsSingleCommit : List Op :=
  [Op.insert 1 0 10, Op.create 1 1 100, Op.attach 1 1, Op.submit 1]

theorem le_foldr_max (l : List Nat) (x : Nat) (hx : x ∈ l) :
    x ≤ l.foldr max 0 := by
  induction l with
  | nil => cases hx
  | cons a t ih =>
    rcases List.mem_cons.mp hx with rfl | h
    · exact le_max_left _ _
    · exact le_trans (ih h) (le_max_right _ _)

theorem entry_id_lt_fresh (s : DB) (be : BillingEntry) (h : be ∈ s.entries) :
    be.billing_id < freshEntryId s :=
  Nat.lt_succ_of_le (le_foldr_max _ _ (List.mem_map_of_mem _ h))

theorem invoice_id_lt_fresh (s : DB) (ci : Invoice) (h : ci ∈ s.invoices) :
    ci.invoice_id < freshInvoiceId s :=
  Nat.lt_succ_of_le (le_foldr_max _ _ (List.mem_map_of_mem _ h))

theorem overlapSingle_imp_disj {n e : BillingEntry}
    (h : OverlapSingle n e) : OverlapDisj n e := by
  unfold OverlapSingle at h
  unfold OverlapDisj
  omega

theorem overlapSingle_comm {n e : BillingEntry} :
    OverlapSingle n e ↔ OverlapSingle e n := by
  unfold OverlapSingle
  exact And.comm

theorem guardCommitted_iff_isCommitted (s : DB)
    (hsync : ∀ it ∈ s.items, ∀ ci ∈ s.invoices,
      ci.invoice_id = it.invoice_id →
      (it.status = ItemStatus.committed ↔ ci.status = InvStatus.submitted))
    (bid : Nat) : GuardCommitted s bid ↔ IsCommitted s bid := by
  constructor
  · rintro ⟨it, hit, hb, hst, ci, hci, hid, hsub⟩
    exact ⟨it, hit, hb, ci, hci, hid, hsub⟩
  · rintro ⟨it, hit, hb, ci, hci, hid, hsub⟩
    exact ⟨it, hit, hb, (hsync it hit ci hci hid).mpr hsub, ci, hci, hid, hsub⟩

theorem mem_memberEntries {s : DB} {invId : Nat} {be : BillingEntry} :
    be ∈ memberEntries s invId ↔
      be ∈ s.entries ∧ MemberOf s invId be.billing_id := by
  unfold memberEntries MemberOf
  rw [List.mem_filter]
  constructor
  · rintro ⟨h1, h2⟩
    refine ⟨h1, ?_⟩
    rcases List.any_eq_true.mp h2 with ⟨it, hit, hp⟩
    simp only [Bool.and_eq_true, beq_iff_eq] at hp
    exact ⟨it, hit, hp.1, hp.2⟩
  · rintro ⟨h1, it, hit, ha, hb⟩
    refine ⟨h1, List.any_eq_true.mpr ⟨it, hit, ?_⟩⟩
    simp [ha, hb]

theorem isCommitted_set_entries (s : DB) (es : List BillingEntry)
    (bid : Nat) :
    IsCommitted { s with entries := es } bid ↔ IsCommitted s bid :=
  Iff.rfl

theorem shares_set_entries (s : DB) (es : List BillingEntry) (a b : Nat) :
    SharesSubmittedInvoice { s with entries := es } a b ↔
      SharesSubmittedInvoice s a b :=
  Iff.rfl

theorem isCommitted_append_draft_invoice (s : DB) (i : Invoice)
    (hi : i.status ≠ InvStatus.submitted) (bid : Nat) :
    IsCommitted { s with invoices := s.invoices ++ [i] } bid ↔
      IsCommitted s bid := by
  constructor
  · rintro ⟨it, hit, hb, ci, hci, hid, hsub⟩
    rcases List.mem_append.mp hci with hold | hnew
    · exact ⟨it, hit, hb, ci, hold, hid, hsub⟩
    · rcases List.mem_singleton.mp hnew with rfl
      exact absurd hsub hi
  · rintro ⟨it, hit, hb, ci, hci, hid, hsub⟩
    exact ⟨it, hit, hb, ci, List.mem_append_left _ hci, hid, hsub⟩

theorem shares_append_draft_invoice (s : DB) (i : Invoice)
    (hi : i.status ≠ InvStatus.submitted) (a b : Nat) :
    SharesSubmittedInvoice { s with invoices := s.invoices ++ [i] } a b ↔
      SharesSubmittedInvoice s a b := by
  constructor
  · rintro ⟨ci, hci, hsub, hma, hmb⟩
    rcases List.mem_append.mp hci with hold | hnew
    · exact ⟨ci, hold, hsub, hma, hmb⟩
    · rcases List.mem_singleton.mp hnew with rfl
      exact absurd hsub hi
  · rintro ⟨ci, hci, hsub, hma, hmb⟩
    exact ⟨ci, List.mem_append_left _ hci, hsub, hma, hmb⟩

theorem memberOf_append_item (s : DB) (new : InvoiceBillingItem)
    (invId bid : Nat) :
    MemberOf { s with items := s.items ++ [new] } invId bid ↔
      MemberOf s invId bid ∨
        (new.invoice_id = invId ∧ new.billing_id = bid) := by
  constructor
  · rintro ⟨it, hit, ha, hb⟩
    rcases List.mem_append.mp hit with hold | hnew
    · exact Or.inl ⟨it, hold, ha, hb⟩
    · rcases List.mem_singleton.mp hnew with rfl
      exact Or.inr ⟨ha, hb⟩
  · rintro (⟨it, hit, ha, hb⟩ | ⟨ha, hb⟩)
    · exact ⟨it, List.mem_append_left _ hit, ha, hb⟩
    · exact ⟨new, List.mem_append_right _ (List.mem_singleton_self _),
        ha, hb⟩

theorem isCommitted_append_item (s : DB) (new : InvoiceBillingItem)
    (hdraft : ∀ ci ∈ s.invoices, ci.invoice_id = new.invoice_id →
      ci.status ≠ InvStatus.submitted) (bid : Nat) :
    IsCommitted { s with items := s.items ++ [new] } bid ↔
      IsCommitted s bid := by
  constructor
  · rintro ⟨it, hit, hb, ci, hci, hid, hsub⟩
    rcases List.mem_append.mp hit with hold | hnew
    · exact ⟨it, hold, hb, ci, hci, hid, hsub⟩
    · rcases List.mem_singleton.mp hnew with rfl
      exact absurd hsub (hdraft ci hci hid)
  · rintro ⟨it, hit, hb, ci, hci, hid, hsub⟩
    exact ⟨it, List.mem_append_left _ hit, hb, ci, hci, hid, hsub⟩

theorem shares_append_item (s : DB) (new : InvoiceBillingItem)
    (hdraft : ∀ ci ∈ s.invoices, ci.invoice_id = new.invoice_id →
      ci.status ≠ InvStatus.submitted) (a b : Nat) :
    SharesSubmittedInvoice { s with items := s.items ++ [new] } a b ↔
      SharesSubmittedInvoice s a b := by
  constructor
  · rintro ⟨ci, hci, hsub, hma, hmb⟩
    refine ⟨ci, hci, hsub, ?_, ?_⟩
    · rcases (memberOf_append_item s new ci.invoice_id a).mp hma with
        h | ⟨hid, _⟩
      · exact h
      · exact absurd hsub (hdraft ci hci hid.symm)
    · rcases (memberOf_append_item s new ci.invoice_id b).mp hmb with
        h | ⟨hid, _⟩
      · exact h
      · exact absurd hsub (hdraft ci hci hid.symm)
  · rintro ⟨ci, hci, hsub, hma, hmb⟩
    exact ⟨ci, hci, hsub,
      (memberOf_append_item s new ci.invoice_id a).mpr (Or.inl hma),
      (memberOf_append_item s new ci.invoice_id b).mpr (Or.inl hmb)⟩

theorem submitApply_item_billing (invId : Nat) (it : InvoiceBillingItem) :
    (if it.invoice_id == invId then
      { it with status := ItemStatus.committed } else it).billing_id =
      it.billing_id := by
  split <;> rfl

theorem submitApply_item_invoice (invId : Nat) (it : InvoiceBillingItem) :
    (if it.invoice_id == invId then
      { it with status := ItemStatus.committed } else it).invoice_id =
      it.invoice_id := by
  split <;> rfl

theorem submitApply_invoice_id (invId : Nat) (ci : Invoice) :
    (if ci.invoice_id == invId then
      { ci with status := InvStatus.submitted } else ci).invoice_id =
      ci.invoice_id := by
  split <;> rfl

theorem submitApply_invoice_submitted (invId : Nat) (ci : Invoice)
    (h : ci.status = InvStatus.submitted) :
    (if ci.invoice_id == invId then
      { ci with status := InvStatus.submitted } else ci).status =
      InvStatus.submitted := by
  split
  · rfl
  · exact h

theorem memberOf_submitApply (s : DB) (invId j bid : Nat) :
    MemberOf (submitApply s invId) j bid ↔ MemberOf s j bid := by
  constructor
  · rintro ⟨it', hit', ha, hb⟩
    obtain ⟨it, hit, rfl⟩ := List.mem_map.mp hit'
    rw [submitApply_item_invoice] at ha
    rw [submitApply_item_billing] at hb
    exact ⟨it, hit, ha, hb⟩
  · rintro ⟨it, hit, ha, hb⟩
    refine ⟨_, List.mem_map_of_mem _ hit, ?_, ?_⟩
    · rw [submitApply_item_invoice]; exact ha
    · rw [submitApply_item_billing]; exact hb

theorem isCommitted_submitApply (s : DB) (invId : Nat)
    (hinv : ∃ ci ∈ s.invoices, ci.invoice_id = invId) (bid : Nat) :
    IsCommitted (submitApply s invId) bid ↔
      IsCommitted s bid ∨ MemberOf s invId bid := by
  constructor
  · rintro ⟨it', hit', hb, ci', hci', hid, hsub⟩
    obtain ⟨it, hit, rfl⟩ := List.mem_map.mp hit'
    obtain ⟨ci, hci, rfl⟩ := List.mem_map.mp hci'
    rw [submitApply_item_billing] at hb
    rw [submitApply_invoice_id] at hid
    rw [submitApply_item_invoice] at hid
    by_cases hc : it.invoice_id = invId
    · exact Or.inr ⟨it, hit, hc, hb⟩
    · have hcne : ci.invoice_id ≠ invId := by rw [hid]; exact hc
      rw [if_neg (by simpa using hcne)] at hsub
      exact Or.inl ⟨it, hit, hb, ci, hci, hid, hsub⟩
  · rintro (⟨it, hit, hb, ci, hci, hid, hsub⟩ | ⟨it, hit, hii, hb⟩)
    · refine ⟨_, List.mem_map_of_mem _ hit, ?_, _,
        List.mem_map_of_mem _ hci, ?_, ?_⟩
      · rw [submitApply_item_billing]; exact hb
      · rw [submitApply_invoice_id, submitApply_item_invoice]; exact hid
      · exact submitApply_invoice_submitted invId ci hsub
    · obtain ⟨ci, hci, hciid⟩ := hinv
      refine ⟨_, List.mem_map_of_mem _ hit, ?_, _,
        List.mem_map_of_mem _ hci, ?_, ?_⟩
      · rw [submitApply_item_billing]; exact hb
      · rw [submitApply_invoice_id, submitApply_item_invoice, hciid, hii]
      · rw [if_pos (by simpa using hciid)]

theorem shares_submitApply (s : DB) (invId : Nat)
    (hinv : ∃ ci ∈ s.invoices, ci.invoice_id = invId) (a b : Nat) :
    SharesSubmittedInvoice (submitApply s invId) a b ↔
      SharesSubmittedInvoice s a b ∨
        (MemberOf s invId a ∧ MemberOf s invId b) := by
  constructor
  · rintro ⟨ci', hci', hsub, hma, hmb⟩
    obtain ⟨ci, hci, rfl⟩ := List.mem_map.mp hci'
    rw [submitApply_invoice_id] at hma hmb
    rw [memberOf_submitApply] at hma hmb
    by_cases hc : ci.invoice_id = invId
    · rw [hc] at hma hmb
      exact Or.inr ⟨hma, hmb⟩
    · rw [if_neg (by simpa using hc)] at hsub
      exact Or.inl ⟨ci, hci, hsub, hma, hmb⟩
  · rintro (⟨ci, hci, hsub, hma, hmb⟩ | ⟨hma, hmb⟩)
    · refine ⟨_, List.mem_map_of_mem _ hci,
        submitApply_invoice_submitted invId ci hsub, ?_, ?_⟩
      · rw [submitApply_invoice_id, memberOf_submitApply]; exact hma
      · rw [submitApply_invoice_id, memberOf_submitApply]; exact hmb
    · obtain ⟨ci, hci, hciid⟩ := hinv
      refine ⟨_, List.mem_map_of_mem _ hci, ?_, ?_, ?_⟩
      · rw [if_pos (by simpa using hciid)]
      · rw [submitApply_invoice_id, memberOf_submitApply, hciid]; exact hma
      · rw [submitApply_invoice_id, memberOf_submitApply, hciid]; exact hmb

theorem fresh_not_committed (s : DB)
    (hIE : ∀ it ∈ s.items, ∃ be ∈ s.entries, be.billing_id = it.billing_id) :
    ¬ IsCommitted s (freshEntryId s) := by
  rintro ⟨it, hit, hb, _⟩
  obtain ⟨be, hbe, hid⟩ := hIE it hit
  have hlt := entry_id_lt_fresh s be hbe
  rw [hid, hb] at hlt
  exact lt_irrefl _ hlt

theorem coreInv_init (ms : List Nat) : CoreInv (init ms) := by
  constructor <;> simp [init]

theorem coreInv_insert (s : DB) (m a b : Nat) (h : CoreInv s) :
    CoreInv (recordBillableTime s m a b).1 := by
  by_cases hm : m ∈ s.matters
  · by_cases hf : InsertTriggerFires s ⟨freshEntryId s, m, a, b⟩
    · simpa [recordBillableTime, hm, hf] using h
    · simp only [recordBillableTime, if_pos hm, if_neg hf]
      refine ⟨h.invNodup, h.itemInv, ?_, h.itemNodup, h.sync, ?_⟩
      · intro it hit
        obtain ⟨be, hbe, hid⟩ := h.itemEntry it hit
        exact ⟨be, List.mem_append_left _ hbe, hid⟩
      · intro x hx y hy hne hcx hcy hsh
        rcases List.mem_append.mp hx with hx | hx
        · rcases List.mem_append.mp hy with hy | hy
          · exact h.noOv x hx y hy hne hcx hcy hsh
          · rcases List.mem_singleton.mp hy with rfl
            exact absurd hcy (fresh_not_committed s h.itemEntry)
        · rcases List.mem_singleton.mp hx with rfl
          exact absurd hcx (fresh_not_committed s h.itemEntry)
  · simpa [recordBillableTime, hm] using h

theorem coreInv_create (s : DB) (c m num : Nat) (h : CoreInv s) :
    CoreInv (createInvoice s c m num).1 := by
  simp only [createInvoice]
  have hdraft : (⟨freshInvoiceId s, c, m, num, InvStatus.draft, true⟩ :
      Invoice).status ≠ InvStatus.submitted := by
    intro hcontra
    cases hcontra
  refine ⟨?_, ?_, h.itemEntry, h.itemNodup, ?_, ?_⟩
  · rw [List.map_append, List.nodup_append]
    refine ⟨h.invNodup, List.nodup_singleton _, ?_⟩
    intro x hx hx'
    obtain ⟨ci, hci, rfl⟩ := List.mem_map.mp hx
    rcases List.mem_singleton.mp hx' with hfr
    have hlt := invoice_id_lt_fresh s ci hci
    rw [hfr] at hlt
    exact lt_irrefl _ hlt
  · intro it hit
    obtain ⟨ci, hci, hid⟩ := h.itemInv it hit
    exact ⟨ci, List.mem_append_left _ hci, hid⟩
  · intro it hit ci hci hid
    rcases List.mem_append.mp hci with hold | hnew
    · exact h.sync it hit ci hold hid
    · rcases List.mem_singleton.mp hnew with rfl
      obtain ⟨ci₀, hci₀, hid₀⟩ := h.itemInv it hit
      have hlt := invoice_id_lt_fresh s ci₀ hci₀
      rw [hid₀, ← hid] at hlt
      exact absurd hlt (lt_irrefl _)
  · intro x hx y hy hne hcx hcy hsh
    rw [isCommitted_append_draft_invoice s _ hdraft] at hcx hcy
    rw [shares_append_draft_invoice s _ hdraft] at hsh
    exact h.noOv x hx y hy hne hcx hcy hsh

theorem coreInv_update (s : DB) (bid na nb : Nat) (h : CoreInv s) :
    CoreInv (updateBillingEntry s bid na nb).1 := by
  cases hfind : s.entries.find? (fun be => be.billing_id == bid) with
  | none => simpa [updateBillingEntry, hfind] using h
  | some be =>
    have hbeid : be.billing_id = bid := by
      have := List.find?_some hfind
      simpa using this
    by_cases hf : UpdateTriggerFires s
        { be with billing_start := na, billing_stop := nb }
    · simpa [updateBillingEntry, hfind, hf] using h
    · simp only [updateBillingEntry, hfind, if_neg hf]
      refine ⟨h.invNodup, h.itemInv, ?_, h.itemNodup, h.sync, ?_⟩
      · intro it hit
        obtain ⟨b0, hb0, hid⟩ := h.itemEntry it hit
        refine ⟨_, List.mem_map_of_mem _ hb0, ?_⟩
        split <;> exact hid
      · intro x hx y hy hne hcx hcy hsh
        obtain ⟨x0, hx0, rfl⟩ := List.mem_map.mp hx
        obtain ⟨y0, hy0, rfl⟩ := List.mem_map.mp hy
        have hxid : (if x0.billing_id == bid then
            { x0 with billing_start := na, billing_stop := nb }
            else x0).billing_id = x0.billing_id := by split <;> rfl
        have hyid : (if y0.billing_id == bid then
            { y0 with billing_start := na, billing_stop := nb }
            else y0).billing_id = y0.billing_id := by split <;> rfl
        rw [hxid] at hcx
        rw [hyid] at hcy
        rw [hxid, hyid] at hne hsh
        have hcx' : IsCommitted s x0.billing_id := hcx
        have hcy' : IsCommitted s y0.billing_id := hcy
        have hsh' : ¬ SharesSubmittedInvoice s x0.billing_id y0.billing_id :=
          hsh
        by_cases hxbid : x0.billing_id = bid
        · have hybid : y0.billing_id ≠ bid := by
            rw [hxbid] at hne
            exact fun hc => hne hc.symm
          rw [if_pos (by simpa using hxbid), if_neg (by simpa using hybid)]
          intro hov
          apply hf
          refine ⟨y0, hy0, (guardCommitted_iff_isCommitted s h.sync
            y0.billing_id).mpr hcy', ?_, ?_⟩
          · intro hc
            exact hybid (by rw [hc]; exact hbeid)
          · exact overlapSingle_imp_disj (by
              rcases hov with ⟨h1, h2⟩
              exact ⟨h1, h2⟩)
        · by_cases hybid : y0.billing_id = bid
          · rw [if_neg (by simpa using hxbid),
              if_pos (by simpa using hybid)]
            intro hov
            apply hf
            refine ⟨x0, hx0, (guardCommitted_iff_isCommitted s h.sync
              x0.billing_id).mpr hcx', ?_, ?_⟩
            · intro hc
              exact hxbid (by rw [hc]; exact hbeid)
            · exact overlapSingle_imp_disj (overlapSingle_comm.mp (by
                rcases hov with ⟨h1, h2⟩
                exact ⟨h1, h2⟩))
          · rw [if_neg (by simpa using hxbid), if_neg (by simpa using hybid)]
            exact h.noOv x0 hx0 y0 hy0 hne hcx' hcy' hsh'

theorem coreInv_attach (s : DB) (invId bid : Nat) (h : CoreInv s) :
    CoreInv (addBillingToInvoice s invId bid).1 := by
  cases hfind : findInvoice s invId with
  | none => simpa [addBillingToInvoice, hfind] using h
  | some inv =>
    have hinvmem : inv ∈ s.invoices :=
      List.mem_of_find?_eq_some hfind
    have hinvid : inv.invoice_id = invId := by
      have := List.find?_some hfind
      simpa using this
    by_cases hst : inv.status = InvStatus.draft
    · cases hfe : findEntry s bid with
      | none => simp [addBillingToInvoice, hfind, hst, hfe]; exact h
      | some be =>
        have hbemem : be ∈ s.entries :=
          List.mem_of_find?_eq_some hfe
        have hbeid : be.billing_id = bid := by
          have := List.find?_some hfe
          simpa using this
        by_cases hdup : s.items.any (fun it =>
            it.invoice_id == invId && it.billing_id == bid) = true
        · simp [addBillingToInvoice, hfind, hst, hfe, hdup]; exact h
        · have huniq : ∀ ci ∈ s.invoices, ci.invoice_id = invId → ci = inv := by
            intro ci hci hid
            exact List.inj_on_of_nodup_map h.invNodup hci hinvmem
              (by rw [hid, hinvid])
          have hdraftinv : ∀ ci ∈ s.invoices,
              ci.invoice_id = (⟨invId, bid, ItemStatus.draft⟩ :
                InvoiceBillingItem).invoice_id →
              ci.status ≠ InvStatus.submitted := by
            intro ci hci hid hsub
            rcases huniq ci hci hid
            rw [hst] at hsub
            cases hsub
          simp only [addBillingToInvoice, hfind, hfe,
            if_neg (by simp [hst] : ¬ inv.status ≠ InvStatus.draft),
            if_neg hdup]
          refine ⟨h.invNodup, ?_, ?_, ?_, ?_, ?_⟩
          · intro it hit
            rcases List.mem_append.mp hit with hold | hnew
            · exact h.itemInv it hold
            · rcases List.mem_singleton.mp hnew with rfl
              exact ⟨inv, hinvmem, hinvid⟩
          · intro it hit
            rcases List.mem_append.mp hit with hold | hnew
            · exact h.itemEntry it hold
            · rcases List.mem_singleton.mp hnew with rfl
              exact ⟨be, hbemem, hbeid⟩
          · rw [List.pairwise_append]
            refine ⟨h.itemNodup, List.pairwise_singleton _ _, ?_⟩
            intro x hx y hy
            rcases List.mem_singleton.mp hy with rfl
            rintro ⟨h1, h2⟩
            apply hdup
            exact List.any_eq_true.mpr ⟨x, hx, by simp [h1, h2]⟩
          · intro it hit ci hci hid
            rcases List.mem_append.mp hit with hold | hnew
            · exact h.sync it hold ci hci hid
            · rcases List.mem_singleton.mp hnew with rfl
              rcases huniq ci hci hid
              constructor
              · intro hc
                cases hc
              · intro hsub
                rw [hst] at hsub
                cases hsub
          · intro x hx y hy hne hcx hcy hsh
            rw [isCommitted_append_item s _ hdraftinv] at hcx hcy
            rw [shares_append_item s _ hdraftinv] at hsh
            exact h.noOv x hx y hy hne hcx hcy hsh
    · simp [addBillingToInvoice, hfind, hst]; exact h

theorem coreInv_submitApply (s : DB) (invId : Nat) (h : CoreInv s)
    (hinv : ∃ ci ∈ s.invoices, ci.invoice_id = invId)
    (hcf : ¬ SubmitConflict s invId) :
    CoreInv (submitApply s invId) := by
  refine ⟨?_, ?_, ?_, ?_, ?_, ?_⟩
  · have heq : (submitApply s invId).invoices.map Invoice.invoice_id =
        s.invoices.map Invoice.invoice_id := by
      simp only [submitApply, List.map_map]
      apply List.map_congr_left
      intro ci hci
      exact submitApply_invoice_id invId ci
    rw [heq]
    exact h.invNodup
  · intro it' hit'
    obtain ⟨it, hit, rfl⟩ := List.mem_map.mp hit'
    obtain ⟨ci, hci, hid⟩ := h.itemInv it hit
    refine ⟨_, List.mem_map_of_mem _ hci, ?_⟩
    rw [submitApply_invoice_id, submitApply_item_invoice]
    exact hid
  · intro it' hit'
    obtain ⟨it, hit, rfl⟩ := List.mem_map.mp hit'
    obtain ⟨be, hbe, hid⟩ := h.itemEntry it hit
    refine ⟨be, hbe, ?_⟩
    rw [submitApply_item_billing]
    exact hid
  · show List.Pairwise _ (s.items.map _)
    rw [List.pairwise_map]
    apply List.Pairwise.imp ?_ h.itemNodup
    intro x y hxy hc
    apply hxy
    rw [submitApply_item_invoice, submitApply_item_invoice,
      submitApply_item_billing, submitApply_item_billing] at hc
    exact hc
  · intro it' hit' ci' hci' hid
    obtain ⟨it, hit, rfl⟩ := List.mem_map.mp hit'
    obtain ⟨ci, hci, rfl⟩ := List.mem_map.mp hci'
    rw [submitApply_invoice_id, submitApply_item_invoice] at hid
    by_cases hii : it.invoice_id = invId
    · rw [if_pos (by simpa using hii),
        if_pos (by simp [hid, hii] : (ci.invoice_id == invId) = true)]
      constructor
      · intro _
        rfl
      · intro _
        rfl
    · have hcne : ci.invoice_id ≠ invId := by rw [hid]; exact hii
      rw [if_neg (by simpa using hii), if_neg (by simpa using hcne)]
      exact h.sync it hit ci hci hid
  · intro x hx y hy hne hcx hcy hsh
    have hx' : x ∈ s.entries := hx
    have hy' : y ∈ s.entries := hy
    rw [isCommitted_submitApply s invId hinv] at hcx hcy
    rw [shares_submitApply s invId hinv] at hsh
    push_neg at hsh
    rcases hcx with scx | mx
    · rcases hcy with scy | my
      · exact h.noOv x hx' y hy' hne scx scy (by
          intro hc
          exact hsh.1 hc)
      · intro hov
        apply hcf
        exact ⟨y, mem_memberEntries.mpr ⟨hy', my⟩, x, hx', scx,
          hne, overlapSingle_comm.mp hov⟩
    · rcases hcy with scy | my
      · intro hov
        apply hcf
        exact ⟨x, mem_memberEntries.mpr ⟨hx', mx⟩, y, hy', scy,
          fun hc => hne hc.symm, hov⟩
      · exact absurd my (hsh.2 mx)

theorem coreInv_submit (s : DB) (invId : Nat) (h : CoreInv s) :
    CoreInv (submitInvoice s invId).1 := by
  cases hfind : findInvoice s invId with
  | none => simpa [submitInvoice, hfind] using h
  | some inv =>
    have hinvmem : inv ∈ s.invoices := List.mem_of_find?_eq_some hfind
    have hinvid : inv.invoice_id = invId := by
      have := List.find?_some hfind
      simpa using this
    by_cases hst : inv.status = InvStatus.draft
    · by_cases hval : inv.is_valid = false
      · simp [submitInvoice, hfind, hst, hval]; exact h
      · by_cases hcf : SubmitConflict s invId
        · simp [submitInvoice, hfind, hst, hval, hcf]; exact h
        · have hgoal : (submitInvoice s invId).1 = submitApply s invId := by
            simp [submitInvoice, hfind, hst, hval, hcf]
          rw [hgoal]
          exact coreInv_submitApply s invId h ⟨inv, hinvmem, hinvid⟩ hcf
    · simp [submitInvoice, hfind, hst]; exact h

theorem coreInv_step (s : DB) (op : Op) (h : CoreInv s) :
    CoreInv (step s op) := by
  cases op with
  | insert m a b => exact coreInv_insert s m a b h
  | update bid a b => exact coreInv_update s bid a b h
  | create c m num => exact coreInv_create s c m num h
  | attach i b => exact coreInv_attach s i b h
  | submit i => exact coreInv_submit s i h

theorem coreInv_run (s : DB) (ops : List Op) (h : CoreInv s) :
    CoreInv (run s ops) := by
  induction ops generalizing s with
  | nil => exact h
  | cons op t ih => exact ih _ (coreInv_step s op h)

theorem reachable_coreInv (s : DB) (h : Reachable s) : CoreInv s := by
  obtain ⟨ms, ops, rfl⟩ := h
  exact coreInv_run _ _ (coreInv_init ms)

theorem submitInvoice_cases (s : DB) (invId : Nat) :
    submitInvoice s invId = (submitApply s invId, SubmitResult.success) ∨
      (submitInvoice s invId).1 = s ∧
        (submitInvoice s invId).2 ≠ SubmitResult.success := by
  cases hfind : findInvoice s invId with
  | none =>
    right
    refine ⟨by simp [submitInvoice, hfind], ?_⟩
    simp [submitInvoice, hfind]
  | some inv =>
    by_cases hst : inv.status = InvStatus.draft
    · by_cases hval : inv.is_valid = false
      · right
        refine ⟨by simp [submitInvoice, hfind, hst, hval], ?_⟩
        simp [submitInvoice, hfind, hst, hval]
      · by_cases hcf : SubmitConflict s invId
        · right
          refine ⟨by simp [submitInvoice, hfind, hst, hval, hcf], ?_⟩
          simp [submitInvoice, hfind, hst, hval, hcf]
        · left
          simp [submitInvoice, hfind, hst, hval, hcf]
    · right
      refine ⟨by simp [submitInvoice, hfind, hst], ?_⟩
      simp [submitInvoice, hfind, hst]

theorem overlapDisj_zero_left (i m t : Nat) (e : BillingEntry)
    (he : e.billing_start ≤ e.billing_stop) :
    OverlapDisj ⟨i, m, t, t⟩ e ↔
      e.billing_start ≤ t ∧ t ≤ e.billing_stop := by
  unfold OverlapDisj
  dsimp only
  omega

/-- C1, counterexample: after the reachable sequence insert [0,10),
insert [5,15) (same matter), create one invoice, attach both, submit, the
store holds two distinct committed billing entries of one matter whose
intervals overlap under the single pair test; the claimed invariant fails. -/
theorem C1_counterexample :
    ∃ a ∈ (run (init [1]) opsSameInvoiceOverlap).entries,
      ∃ b ∈ (run (init [1]) opsSameInvoiceOverlap).entries,
        a.billing_id ≠ b.billing_id ∧ a.matter_id = b.matter_id ∧
        IsCommitted (run (init [1]) opsSameInvoiceOverlap) a.billing_id ∧
        IsCommitted (run (init [1]) opsSameInvoiceOverlap) b.billing_id ∧
        a.billing_start < b.billing_stop ∧
        b.billing_start < a.billing_stop := by
  decide

/-- C1, amended: after every sequence of core operations, two distinct
committed billing entries of one matter that are NOT members of one
common submitted invoice never overlap; the exception is exactly the pair
committed together by the submission of a single invoice holding both. -/
theorem C1_theorem (s : DB) (hs : Reachable s) :
    ∀ a ∈ s.entries, ∀ b ∈ s.entries, a.billing_id ≠ b.billing_id →
      a.matter_id = b.matter_id →
      IsCommitted s a.billing_id → IsCommitted s b.billing_id →
      ¬ SharesSubmittedInvoice s a.billing_id b.billing_id →
      ¬ (a.billing_start < b.billing_stop ∧
          b.billing_start < a.billing_stop) := by
  intro a ha b hb hne hmat hca hcb hsh
  exact (reachable_coreInv s hs).noOv a ha b hb hne hca hcb hsh

/-- C1, witness: two disjoint committed entries of one matter, committed
through two different invoices, satisfy the amended invariant. -/
theorem C1_witness :
    IsCommitted (run (init [1]) opsTwoInvoices) 1 ∧
    IsCommitted (run (init [1]) opsTwoInvoices) 2 ∧
    ¬ ((0 : Nat) < 30 ∧ (20 : Nat) < 10) :=
  ⟨by decide, by decide,
    C1_theorem (run (init [1]) opsTwoInvoices) ⟨[1], opsTwoInvoices, rfl⟩
      ⟨1, 1, 0, 10⟩ (by decide) ⟨2, 1, 20, 30⟩ (by decide) (by decide)
      (by decide) (by decide) (by decide) (by decide)⟩

/-- C2: whenever submit_invoice returns success, the invoice row has
status submitted and every invoice_billing_items row of the invoice has
status committed; any non-success outcome leaves the store unchanged, so
the transition is all-or-nothing. -/
theorem C2_theorem (s : DB) (invId : Nat) :
    (∀ s', submitInvoice s invId = (s', SubmitResult.success) →
      (∀ ci ∈ s'.invoices, ci.invoice_id = invId →
        ci.status = InvStatus.submitted) ∧
      (∀ it ∈ s'.items, it.invoice_id = invId →
        it.status = ItemStatus.committed)) ∧
    (∀ s' r, submitInvoice s invId = (s', r) →
      r ≠ SubmitResult.success → s' = s) := by
  constructor
  · intro s' heq
    rcases submitInvoice_cases s invId with hok | ⟨h1, h2⟩
    · rw [heq] at hok
      have hs' : s' = submitApply s invId := congrArg Prod.fst hok
      subst hs'
      constructor
      · intro ci' hci' hid
        obtain ⟨ci, hci, rfl⟩ := List.mem_map.mp hci'
        rw [submitApply_invoice_id] at hid
        rw [if_pos (by simpa using hid)]
      · intro it' hit' hid
        obtain ⟨it, hit, rfl⟩ := List.mem_map.mp hit'
        rw [submitApply_item_invoice] at hid
        rw [if_pos (by simpa using hid)]
    · rw [heq] at h2
      exact absurd rfl h2
  · intro s' r heq hne
    rcases submitInvoice_cases s invId with hok | ⟨h1, h2⟩
    · rw [heq] at hok
      exact absurd (congrArg Prod.snd hok) hne
    · rw [heq] at h1
      exact h1

/-- C2, witness: submitting the ready draft invoice of stateReadyDraft
yields a submitted invoice with its item committed, and the refused
submission of the invalid draft invoice of stateInvalidDraft leaves the
store unchanged. -/
theorem C2_witness :
    (∀ ci ∈ (submitApply stateReadyDraft 1).invoices, ci.invoice_id = 1 →
      ci.status = InvStatus.submitted) ∧
    (∀ it ∈ (submitApply stateReadyDraft 1).items, it.invoice_id = 1 →
      it.status = ItemStatus.committed) ∧
    (submitInvoice stateInvalidDraft 2).1 = stateInvalidDraft := by
  have h1 := (C2_theorem stateReadyDraft 1).1 (submitApply stateReadyDraft 1)
    (by decide)
  have h2 := (C2_theorem stateInvalidDraft 2).2
    (submitInvoice stateInvalidDraft 2).1 (submitInvoice stateInvalidDraft 2).2
    rfl (by decide)
  exact ⟨h1.1, h1.2, h2⟩

/-- C3: on a draft invoice whose members conflict with committed entries
(the re-checked Overlap Guard predicate), submit_invoice leaves the store
unchanged and does not succeed, whatever the cached validity flag says. -/
theorem C3_theorem (s : DB) (invId : Nat) (inv : Invoice)
    (hfind : findInvoice s invId = some inv)
    (hst : inv.status = InvStatus.draft)
    (hcf : SubmitConflict s invId) :
    (submitInvoice s invId).1 = s ∧
    (submitInvoice s invId).2 ≠ SubmitResult.success := by
  by_cases hval : inv.is_valid = false
  · have heq : submitInvoice s invId = (s, SubmitResult.refusedInvalid []) := by
      simp [submitInvoice, hfind, hst, hval]
    rw [heq]
    exact ⟨rfl, fun hc => SubmitResult.noConfusion hc⟩
  · have heq : submitInvoice s invId = (s, SubmitResult.abortedConflict []) := by
      simp [submitInvoice, hfind, hst, hval, hcf]
    rw [heq]
    exact ⟨rfl, fun hc => SubmitResult.noConfusion hc⟩

/-- C3, witness: in stateStaleValid the cached validity flag of the draft
invoice 2 is true, yet its member overlaps the committed entry 1, and the
submission is rejected with the store unchanged — the flag alone is not
trusted. -/
theorem C3_witness :
    (∃ ci ∈ stateStaleValid.invoices, ci.invoice_id = 2 ∧
      ci.is_valid = true) ∧
    SubmitConflict stateStaleValid 2 ∧
    ((submitInvoice stateStaleValid 2).1 = stateStaleValid ∧
      (submitInvoice stateStaleValid 2).2 ≠ SubmitResult.success) :=
  ⟨by decide, by decide,
    C3_theorem stateStaleValid 2 ⟨2, 1, 1, 101, InvStatus.draft, true⟩
      (by decide) (by decide) (by decide)⟩

/-- C4, counterexample: in stateMatterOne the only committed entry belongs
to matter 1 and the inserted entry to matter 2, no committed entry of
matter 2 exists, yet the insert is rejected with a conflict: the trigger
is not matter-scoped. -/
theorem C4_counterexample :
    (∀ be ∈ stateMatterOne.entries, be.matter_id ≠ 2) ∧
    IsCommitted stateMatterOne 1 ∧
    recordBillableTime stateMatterOne 2 5 15 =
      (stateMatterOne, InsertResult.conflictError) := by
  decide

/-- C4, amended: the Overlap Guard is global, not matter-scoped — an
insert whose interval satisfies the trigger disjunction against a
committed entry of a DIFFERENT matter is rejected with a conflict error
and the store is unchanged. -/
theorem C4_theorem (s : DB) (m a b : Nat) (hm : m ∈ s.matters)
    (hov : ∃ be ∈ s.entries, GuardCommitted s be.billing_id ∧
      be.matter_id ≠ m ∧ OverlapDisj ⟨freshEntryId s, m, a, b⟩ be) :
    recordBillableTime s m a b = (s, InsertResult.conflictError) := by
  have hfire : InsertTriggerFires s ⟨freshEntryId s, m, a, b⟩ := by
    obtain ⟨be, hbe, hg, _, hd⟩ := hov
    exact ⟨be, hbe, hg, hd⟩
  simp [recordBillableTime, hm, hfire]

/-- C4, witness: the cross-matter rejection of the amended claim at the
concrete store stateMatterOne. -/
theorem C4_witness :
    (2 : Nat) ∈ stateMatterOne.matters ∧
    recordBillableTime stateMatterOne 2 5 15 =
      (stateMatterOne, InsertResult.conflictError) :=
  ⟨by decide, C4_theorem stateMatterOne 2 5 15 (by decide) (by decide)⟩

/-- C5, counterexample: for the empty intervals [0,0) and [0,0) the
triggers' three-way disjunction holds (the encapsulation clause) while
the single pair test does not, so the two predicates are not equivalent
on all half-open intervals. -/
theorem C5_counterexample :
    OverlapDisj ⟨1, 1, 0, 0⟩ ⟨2, 1, 0, 0⟩ ∧
    ¬ OverlapSingle ⟨1, 1, 0, 0⟩ ⟨2, 1, 0, 0⟩ := by
  decide

/-- C5, amended: on nonempty intervals (start strictly below stop on both
sides) the single pair test of the spec is equivalent to the triggers'
three-way disjunction; the equivalence fails only for zero-duration
intervals. -/
theorem C5_theorem (n e : BillingEntry)
    (hn : n.billing_start < n.billing_stop)
    (he : e.billing_start < e.billing_stop) :
    OverlapSingle n e ↔ OverlapDisj n e := by
  unfold OverlapSingle OverlapDisj
  omega

/-- C5, witness: the equivalence at the nonempty intervals [0,2) and
[1,3), where both predicates hold. -/
theorem C5_witness :
    (0 : Nat) < 2 ∧ (1 : Nat) < 3 ∧
    (OverlapSingle ⟨1, 1, 0, 2⟩ ⟨2, 1, 1, 3⟩ ↔
      OverlapDisj ⟨1, 1, 0, 2⟩ ⟨2, 1, 1, 3⟩) :=
  ⟨by decide, by decide, C5_theorem ⟨1, 1, 0, 2⟩ ⟨2, 1, 1, 3⟩
    (by decide) (by decide)⟩

/-- C8, counterexample: inserting the zero-duration entry [5,5) into a
store whose committed entry spans [0,10) is rejected, and inserting
[0,10) into a store whose committed entry is the zero-duration [7,7) is
rejected — zero-duration entries are not inert under the triggers. -/
theorem C8_counterexample :
    (recordBillableTime stateCommitted 1 5 5).2 =
      InsertResult.conflictError ∧
    (recordBillableTime stateZeroDur 1 0 10).2 =
      InsertResult.conflictError := by
  decide

/-- C8, amended: a zero-duration insert at time t is rejected exactly when
some committed entry [s,e] satisfies s ≤ t ≤ e (closed bounds, so even
mere adjacency rejects), and against a committed zero-duration entry at
time u the trigger disjunction holds exactly when the new interval
satisfies start ≤ u ≤ stop. -/
theorem C8_theorem :
    (∀ s m t, m ∈ s.matters →
      (∀ be ∈ s.entries, be.billing_start ≤ be.billing_stop) →
      ((recordBillableTime s m t t).2 = InsertResult.conflictError ↔
        ∃ be ∈ s.entries, GuardCommitted s be.billing_id ∧
          be.billing_start ≤ t ∧ t ≤ be.billing_stop)) ∧
    (∀ n e : BillingEntry, e.billing_start = e.billing_stop →
      (OverlapDisj n e ↔
        n.billing_start ≤ e.billing_start ∧
          e.billing_start ≤ n.billing_stop)) := by
  constructor
  · intro s m t hm hwf
    by_cases hf : InsertTriggerFires s ⟨freshEntryId s, m, t, t⟩
    · simp only [recordBillableTime, if_pos hm, if_pos hf]
      constructor
      · intro _
        obtain ⟨be, hbe, hg, hd⟩ := hf
        exact ⟨be, hbe, hg,
          (overlapDisj_zero_left (freshEntryId s) m t be (hwf be hbe)).mp hd⟩
      · intro _
        trivial
    · simp only [recordBillableTime, if_pos hm, if_neg hf]
      constructor
      · intro hc
        exact absurd hc (fun hx => InsertResult.noConfusion hx)
      · rintro ⟨be, hbe, hg, hb1, hb2⟩
        exact absurd (⟨be, hbe, hg,
          (overlapDisj_zero_left (freshEntryId s) m t be
            (hwf be hbe)).mpr ⟨hb1, hb2⟩⟩ :
          InsertTriggerFires s ⟨freshEntryId s, m, t, t⟩) hf
  · intro n e he
    unfold OverlapDisj
    omega

/-- C8, witness: the characterization applied at stateCommitted with the
zero-duration insert at time 5, which is rejected because 0 ≤ 5 ≤ 10
holds for the committed entry. -/
theorem C8_witness :
    ((recordBillableTime stateCommitted 1 5 5).2 =
      InsertResult.conflictError ↔
      ∃ be ∈ stateCommitted.entries,
        GuardCommitted stateCommitted be.billing_id ∧
          be.billing_start ≤ 5 ∧ 5 ≤ be.billing_stop) ∧
    (OverlapDisj ⟨2, 1, 0, 10⟩ ⟨1, 1, 7, 7⟩ ↔
      (0 : Nat) ≤ 7 ∧ (7 : Nat) ≤ 10) :=
  ⟨C8_theorem.1 stateCommitted 1 5 (by decide) (by decide),
   C8_theorem.2 ⟨2, 1, 0, 10⟩ ⟨1, 1, 7, 7⟩ (by decide)⟩

/-- C9, counterexample: submitting the invalid draft invoice 2 of
stateInvalidDraft fails with the fixed refusal carrying no conflict
detail, although the invoice has the actual conflict pair (2, 1): the
source does not enumerate the conflicts at submit time. -/
theorem C9_counterexample :
    submitInvoice stateInvalidDraft 2 =
      (stateInvalidDraft, SubmitResult.refusedInvalid []) ∧
    invoiceConflicts stateInvalidDraft 2 = [(2, 1)] := by
  decide

/-- C9, amended: submit on a non-draft invoice fails with the
already-submitted error and the store unchanged; submit on a draft
invoice whose cached validity flag is false fails with a refusal that
reports an empty conflict list (the caller is referred to
check_invoice_validity), again with the store unchanged. -/
theorem C9_theorem (s : DB) (invId : Nat) (inv : Invoice)
    (hfind : findInvoice s invId = some inv) :
    (inv.status ≠ InvStatus.draft →
      submitInvoice s invId = (s, SubmitResult.alreadySubmitted)) ∧
    (inv.status = InvStatus.draft → inv.is_valid = false →
      submitInvoice s invId = (s, SubmitResult.refusedInvalid [])) := by
  constructor
  · intro hst
    simp [submitInvoice, hfind, hst]
  · intro hst hval
    simp [submitInvoice, hfind, hst, hval]

/-- C9, witness: both rejection outcomes at the concrete store
stateInvalidDraft — the submitted invoice 1 and the invalid draft
invoice 2. -/
theorem C9_witness :
    submitInvoice stateInvalidDraft 1 =
      (stateInvalidDraft, SubmitResult.alreadySubmitted) ∧
    submitInvoice stateInvalidDraft 2 =
      (stateInvalidDraft, SubmitResult.refusedInvalid []) :=
  ⟨(C9_theorem stateInvalidDraft 1
      ⟨1, 1, 1, 100, InvStatus.submitted, true⟩ (by decide)).1 (by decide),
   (C9_theorem stateInvalidDraft 2
      ⟨2, 1, 1, 101, InvStatus.draft, false⟩ (by decide)).2
      (by decide) (by decide)⟩

/-- C10: add_billing_to_invoice succeeds for any draft invoice and any
existing entry not already on it, inserting a draft
invoice_billing_items row; no hypothesis mentions the matters of the
invoice and the entry, so no matter-consistency check exists. -/
theorem C10_theorem (s : DB) (invId bid : Nat) (inv : Invoice)
    (hfind : findInvoice s invId = some inv)
    (hst : inv.status = InvStatus.draft)
    (hent : (findEntry s bid).isSome = true)
    (hnodup : s.items.any (fun it =>
      it.invoice_id == invId && it.billing_id == bid) = false) :
    addBillingToInvoice s invId bid =
      ({ s with items := s.items ++ [⟨invId, bid, ItemStatus.draft⟩] },
       AttachResult.attached) := by
  cases hfe : findEntry s bid with
  | none =>
    rw [hfe] at hent
    cases hent
  | some be =>
    simp [addBillingToInvoice, hfind, hst, hfe, hnodup]

/-- C10, witness: in stateCrossMatter the draft invoice belongs to matter
1 and the entry to matter 2, and the attach still succeeds and inserts
the draft item. -/
theorem C10_witness :
    (∀ ci ∈ stateCrossMatter.invoices, ci.matter_id = 1) ∧
    (∀ be ∈ stateCrossMatter.entries, be.matter_id = 2) ∧
    addBillingToInvoice stateCrossMatter 1 1 =
      ({ stateCrossMatter with items := [⟨1, 1, ItemStatus.draft⟩] },
       AttachResult.attached) :=
  ⟨by decide, by decide,
    C10_theorem stateCrossMatter 1 1 ⟨1, 1, 1, 100, InvStatus.draft, true⟩
      (by decide) (by decide) (by decide) (by decide)⟩

/-- C6, counterexample: after attaching entry 1 to the two draft invoices
and submitting both, the store has the entry as a member of two distinct
submitted invoices — the at-most-one-submitted-invoice invariant fails. -/
theorem C6_counterexample :
    (∃ ci ∈ (run (init [1]) opsDoubleBilling).invoices,
      ci.invoice_id = 1 ∧ ci.status = InvStatus.submitted) ∧
    (∃ ci ∈ (run (init [1]) opsDoubleBilling).invoices,
      ci.invoice_id = 2 ∧ ci.status = InvStatus.submitted) ∧
    MemberOf (run (init [1]) opsDoubleBilling) 1 1 ∧
    MemberOf (run (init [1]) opsDoubleBilling) 2 1 := by
  decide

/-- C6, amended: the uniqueness the operations do enforce is per pair — in
every reachable store no (invoice, entry) pair appears in
invoice_billing_items twice; an entry attached to two different draft
invoices can still end committed on both once they are submitted. -/
theorem C6_theorem (s : DB) (hs : Reachable s) :
    List.Pairwise (fun x y : InvoiceBillingItem =>
      ¬ (x.invoice_id = y.invoice_id ∧ x.billing_id = y.billing_id))
      s.items :=
  (reachable_coreInv s hs).itemNodup

/-- C6, witness: the per-pair uniqueness at the reachable store with one
invoice holding two entries. -/
theorem C6_witness :
    List.Pairwise (fun x y : InvoiceBillingItem =>
      ¬ (x.invoice_id = y.invoice_id ∧ x.billing_id = y.billing_id))
      (run (init [1]) opsOneInvoiceTwoEntries).items :=
  C6_theorem (run (init [1]) opsOneInvoiceTwoEntries)
    ⟨[1], opsOneInvoiceTwoEntries, rfl⟩

/-- C7, counterexample: in stateDraftItem entry 1 is linked by a
draft-status item to the submitted invoice 1, so the Commitment Tracker
contract counts it committed while the triggers' guard predicate does
not, and an overlapping insert passes the guard — the extra
ibi.status condition is not redundant on raw stores. -/
theorem C7_counterexample :
    IsCommitted stateDraftItem 1 ∧
    ¬ GuardCommitted stateDraftItem 1 ∧
    (recordBillableTime stateDraftItem 1 5 15).2 =
      InsertResult.inserted 2 := by
  decide

/-- C7, amended: the guard predicate of the triggers carries the extra
condition ibi.status = committed, but on every reachable store the item
status column is synchronized with the invoice status, so the guard
coincides there with the Commitment Tracker contract. -/
theorem C7_theorem (s : DB) (hs : Reachable s) (bid : Nat) :
    GuardCommitted s bid ↔ IsCommitted s bid :=
  guardCommitted_iff_isCommitted s (reachable_coreInv s hs).sync bid

/-- C7, witness: the coincidence of the two commitment predicates at the
reachable store with one committed entry, where both hold. -/
theorem C7_witness :
    IsCommitted (run (init [1]) opsSingleCommit) 1 ∧
    (GuardCommitted (run (init [1]) opsSingleCommit) 1 ↔
      IsCommitted (run (init [1]) opsSingleCommit) 1) :=
  ⟨by decide, C7_theorem (run (init [1]) opsSingleCommit)
    ⟨[1], opsSingleCommit, rfl⟩ 1⟩

end LawOffice

